import Mathlib

/-!
# The MDL interpreter of `my_main.c`

A shallow embedding of `first_pass`, `second_pass` and `my_main`, followed by
theorems about them.

Conventions of the embedding.

* A C `double` (and the `float percent` of `second_pass`) is an exact rational,
  or `none` when the result of an operation is not finite (a division by zero);
  rounding is not modelled.
* Frame numbers and counts are natural numbers.
* A `SYMTAB *` held by an opcode is the name of the entry it points to.
* The opcode array, the symbol table, the matrix primitives, the origin stack
  and the drawing routines live in other files of the repository; what
  `my_main.c` needs of them is modelled here and marked as such.
* The calls that leave `my_main` (printing, drawing, saving, displaying,
  assembling the animation) are logged, in order, in the field `out`.
-/

namespace MDL

/-! ## Numbers -/

/-- A C double: an exact rational, or `none` for a non-finite result. -/
abbrev Dbl := Option ℚ

/-- Addition of doubles; a non-finite operand gives a non-finite result. -/
def Dbl.add (a b : Dbl) : Dbl :=
  match a, b with
  | some x, some y => some (x + y)
  | _, _ => none

/-- Multiplication of doubles; a non-finite operand gives a non-finite result. -/
def Dbl.mul (a b : Dbl) : Dbl :=
  match a, b with
  | some x, some y => some (x * y)
  | _, _ => none

/-- The quotient `a / (double) b` of two C ints; non-finite when `b` is zero. -/
def Dbl.div_int (a b : Int) : Dbl :=
  if b = 0 then none else some ((a : ℚ) / (b : ℚ))

/-- Three coordinates, `d[0]`, `d[1]`, `d[2]`. -/
abbrev Vec3 := ℚ × ℚ × ℚ

/-! ## Symbol table -/

/-- Modelled from the spec: the type tag of a symbol-table entry (`symtab.h` is
not part of the sources); only `SYM_VALUE` is told apart by `my_main.c`. -/
inductive SymType
  | SYM_VALUE
  | SYM_OTHER
  deriving DecidableEq, Repr

/-- Modelled from the spec: one symbol-table entry, with its name, type tag
and the `s.value` member. -/
structure SYMTAB where
  name : String
  type : SymType
  value : Dbl
  deriving DecidableEq, Repr

/-- Modelled from the spec: `lookup_symbol(name)`, the position of the first
entry carrying the name, `none` standing for the NULL result. -/
def lookup_symbol : List SYMTAB → String → Option Nat
  | [], _ => none
  | e :: rest, name =>
    if e.name = name then some 0 else (lookup_symbol rest name).map (· + 1)

/-- Modelled from the spec: `set_value(&symtab[p], value)`. A position past
the last live entry addresses a spare slot of the table and leaves the live
entries as they are. -/
def set_value : List SYMTAB → Nat → Dbl → List SYMTAB
  | [], _, _ => []
  | e :: rest, 0, v => { e with value := v } :: rest
  | e :: rest, p + 1, v => e :: set_value rest p v

/-- The member `p->s.value` read through the symbol pointer named `name`. -/
def sym_value (symtab : List SYMTAB) (name : String) : Option Dbl :=
  match lookup_symbol symtab name with
  | none => none
  | some p => (symtab.get? p).map (·.value)

/-! ## Opcodes -/

/-- Modelled from the spec: the entries of the array `op` (declared in
`parser.h`), with the members `my_main.c` reads. -/
inductive Opcode
  | PUSH
  | POP
  | MOVE (d : Vec3) (p : Option String)
  | SCALE (d : Vec3) (p : Option String)
  | ROTATE (axis : ℚ) (degrees : ℚ) (p : Option String)
  | BOX (d0 d1 : Vec3) (constants cs : Option String)
  | SPHERE (d : Vec3) (r : ℚ) (constants cs : Option String)
  | TORUS (d : Vec3) (r0 r1 : ℚ) (constants cs : Option String)
  | LINE (p0 p1 : Vec3) (constants cs0 cs1 : Option String)
  | SAVE (p : String)
  | DISPLAY
  | SET (p : String) (val : ℚ)
  | SETKNOBS (value : ℚ)
  | FRAMES (num_frames : Nat)
  | BASENAME (p : String)
  | VARY (p : String) (start_frame end_frame : Nat) (start_val end_val : ℚ)
  deriving DecidableEq, Repr

/-- An opcode is a FRAMES. -/
def is_FRAMES : Opcode → Bool
  | .FRAMES _ => true
  | _ => false

/-- An opcode is a BASENAME. -/
def is_BASENAME : Opcode → Bool
  | .BASENAME _ => true
  | _ => false

/-- An opcode is a VARY. -/
def is_VARY : Opcode → Bool
  | .VARY _ _ _ _ _ => true
  | _ => false

/-! ## Matrices, origin stack, drawing -/

/-- Modelled from the spec: the matrix primitives of `matrix.c`, over an
arbitrary carrier `M`. `matrix_mult a b` is the product that the C routine
stores into its second argument. The rotation constructors take the angle in
degrees: the factor `M_PI / 180` of `theta` is theirs. -/
structure MatrixLib (M : Type) where
  ident : M
  matrix_mult : M → M → M
  make_translate : Dbl → Dbl → Dbl → M
  make_scale : Dbl → Dbl → Dbl → M
  make_rotX : Dbl → M
  make_rotY : Dbl → M
  make_rotZ : Dbl → M

/-- Modelled from the spec: the origin stack of `stack.c`, never empty: the
matrix on top (`data[top]`) and the ones below it, nearest first, so that the
C index `top` is `below.length`. -/
structure stack (M : Type) where
  cur : M
  below : List M
  deriving DecidableEq, Repr

/-- Modelled from the spec: `new_stack()`, one identity matrix. -/
def new_stack {M : Type} (L : MatrixLib M) : stack M := ⟨L.ident, []⟩

/-- Modelled from the spec: `peek`, the matrix on top. -/
def peek {M : Type} (s : stack M) : M := s.cur

/-- Modelled from the spec: `push`, which puts a copy of the top on the stack. -/
def push {M : Type} (s : stack M) : stack M := ⟨s.cur, s.cur :: s.below⟩

/-- Modelled from the spec: `pop`, which removes the top and fails (`none`,
the EmptyStackError) when only one matrix is left. -/
def pop {M : Type} (s : stack M) : Option (stack M) :=
  match s.below with
  | [] => none
  | m :: rest => some ⟨m, rest⟩

/-- The statement `copy_matrix(tmp, peek(systems))`: the top is overwritten. -/
def copy_to_top {M : Type} (tmp : M) (s : stack M) : stack M := ⟨tmp, s.below⟩

/-- The solid handed to `add_sphere`, `add_torus` or `add_box`. -/
inductive Solid
  | sphere (d : Vec3) (r : ℚ) (step : ℚ)
  | torus (d : Vec3) (r0 r1 : ℚ) (step : ℚ)
  | box (d0 d1 : Vec3)
  deriving DecidableEq, Repr

/-- The points generated for one solid, with the matrices they were
multiplied by since, latest first. -/
structure Points (M : Type) where
  solid : Solid
  by_matrix : List M
  deriving DecidableEq, Repr

/-- The loop variable `step` of `my_main`. -/
def step : ℚ := 1 / 10

/-! ## Interpreter state -/

/-- A call that leaves `my_main`, as logged in `out`. `op_line i` is the line
`printf("%d: ",i) ... printf("\n")` of the inner loop. -/
inductive Event (M : Type)
  | op_line (i : Nat)
  | msg_vary_without_frames
  | msg_no_basename
  | msg_generating (file : String)
  | draw_polygons (tmp : List (Points M))
  | save_extension (t : List (Points M)) (file : String)
  | display (t : List (Points M))
  | make_animation (name : String)
  deriving DecidableEq, Repr

/-- The ways a run stops early: `exit(0)` in `first_pass`, a `pop` of the last
matrix, a symbol that `lookup_symbol` does not find. -/
inductive Fault
  | exit_0
  | EmptyStackError
  | NotFoundError
  deriving DecidableEq, Repr

/-- The variables of `my_main` and the globals it works on. The screen `t` is
the list of what was drawn on it since it was last cleared. -/
structure Interp (M : Type) where
  systems : stack M
  tmp : List (Points M)
  t : List (Points M)
  knob_val : Dbl
  symtab : List SYMTAB
  num_frames : Nat
  name : String
  out : List (Event M)
  deriving DecidableEq, Repr

/-- The result of a piece of the interpreter: the state it ends in, reached
normally or at a fault. -/
inductive Res (M : Type)
  | ok (s : Interp M)
  | abort (f : Fault) (s : Interp M)
  deriving DecidableEq, Repr

/-- The state a result ends in. -/
def Res.state {M : Type} : Res M → Interp M
  | .ok s => s
  | .abort _ s => s

/-- The fault of a result, if any. -/
def Res.fault {M : Type} : Res M → Option Fault
  | .ok _ => none
  | .abort f _ => some f

/-- The log of a result. -/
def Res.trace {M : Type} (r : Res M) : List (Event M) := r.state.out

/-- What `my_main` is given: the opcode array, the symbol table, and the
contents found in the variable `knob_val` (never initialised) and in the
global `name` when it starts. -/
structure Input where
  op : List Opcode
  symtab : List SYMTAB
  knob_val : Dbl
  name : String
  deriving DecidableEq, Repr

/-! ## `first_pass` -/

/-- The three flags of `first_pass`. -/
structure Found where
  frames_found : Bool
  base_found : Bool
  vary_found : Bool
  deriving DecidableEq, Repr

/-- One turn of the loop of `first_pass`. -/
def first_pass_step {M : Type} (a : Found × Interp M) (o : Opcode) : Found × Interp M :=
  match o with
  | .FRAMES n => ({ a.1 with frames_found := true }, { a.2 with num_frames := n })
  | .BASENAME p => ({ a.1 with base_found := true }, { a.2 with name := p })
  | .VARY _ _ _ _ _ => ({ a.1 with vary_found := true }, a.2)
  | _ => a

/-- The function `first_pass`. -/
def first_pass {M : Type} (op : List Opcode) (s : Interp M) : Res M :=
  let a := op.foldl first_pass_step (⟨false, false, false⟩, s)
  if a.1.vary_found && !a.1.frames_found then
    .abort .exit_0 { a.2 with out := a.2.out ++ [.msg_vary_without_frames] }
  else if a.1.frames_found && !a.1.base_found then
    .ok { a.2 with name := "default", out := a.2.out ++ [.msg_no_basename] }
  else
    .ok a.2

/-! ## `second_pass` -/

/-- A node of the per-frame knob lists. -/
structure vary_node where
  name : String
  value : Dbl
  deriving DecidableEq, Repr

/-- One turn of the inner loop of `second_pass` for frame `f`: a `VARY` whose
range holds `f` puts a new node in front of `top`. -/
def second_pass_step (f : Nat) (top : List vary_node) (o : Opcode) : List vary_node :=
  match o with
  | .VARY p start_frame end_frame start_val end_val =>
    if start_frame ≤ f ∧ end_frame ≥ f then
      let percent : Dbl := Dbl.div_int ((f : Int) - start_frame) ((end_frame : Int) - start_frame)
      { name := p,
        value := Dbl.add (some start_val) (Dbl.mul percent (some (end_val - start_val))) } :: top
    else top
  | _ => top

/-- The list `second_pass` stores at index `f`. -/
def second_pass_frame (op : List Opcode) (f : Nat) : List vary_node :=
  op.foldl (second_pass_step f) []

/-- The function `second_pass`: one list per frame. -/
def second_pass (op : List Opcode) (num_frames : Nat) : List (List vary_node) :=
  (List.range num_frames).map (second_pass_frame op)

/-! ## `my_main` -/

/-- The guarded assignment `if (p != NULL) knob_val = p->s.value` that opens
the MOVE, SCALE and ROTATE cases: the contents of `knob_val` afterwards
(`none` when the symbol is not in the table). -/
def load_knob {M : Type} (s : Interp M) (p : Option String) : Option Dbl :=
  match p with
  | none => some s.knob_val
  | some name => sym_value s.symtab name

/-- The tail shared by the SPHERE, TORUS and BOX cases, once the solid is
added to `tmp`: `matrix_mult(peek(systems), tmp)`, `draw_polygons(tmp, t, g)`,
`tmp->lastcol = 0`. -/
def draw_solid {M : Type} (s : Interp M) (sol : Solid) : Interp M :=
  let tmp := s.tmp ++ [{ solid := sol, by_matrix := [] }]
  let tmp := tmp.map fun pts => { pts with by_matrix := peek s.systems :: pts.by_matrix }
  { s with t := s.t ++ tmp, out := s.out ++ [.draw_polygons tmp], tmp := [] }

/-- The tail shared by the MOVE, SCALE and ROTATE cases, `tmp` being the
matrix just made: `matrix_mult(peek(systems), tmp)`,
`copy_matrix(tmp, peek(systems))`, `tmp->lastcol = 0`. -/
def apply_transform {M : Type} (L : MatrixLib M) (s : Interp M) (knob_val : Dbl) (tmp : M) :
    Interp M :=
  let tmp := L.matrix_mult (peek s.systems) tmp
  { s with knob_val := knob_val, systems := copy_to_top tmp s.systems, tmp := [] }

/-- The loop `for (j = 0; j < lastsym; j++) set_value(&symtab[i],value)` of
the SETKNOBS case, with `n` turns left; `i` is the index of the opcode. -/
def setknobs_loop (i : Nat) (value : Dbl) : Nat → List SYMTAB → List SYMTAB
  | 0, tab => tab
  | n + 1, tab => setknobs_loop i value n (set_value tab i value)

/-- The body of the inner loop of `my_main` for the opcode `o` found at
index `i`. -/
def exec_op {M : Type} (L : MatrixLib M) (i : Nat) (o : Opcode) (s0 : Interp M) : Res M :=
  let s := { s0 with out := s0.out ++ [.op_line i] }
  match o with
  | .SPHERE d r _ _ => .ok (draw_solid s (.sphere d r step))
  | .TORUS d r0 r1 _ _ => .ok (draw_solid s (.torus d r0 r1 step))
  | .BOX d0 d1 _ _ => .ok (draw_solid s (.box d0 d1))
  | .LINE _ _ _ _ _ => .ok s
  | .MOVE d p =>
    match load_knob s p with
    | none => .abort .NotFoundError s
    | some knob_val =>
      .ok (apply_transform L s knob_val
        (L.make_translate (Dbl.mul (some d.1) knob_val) (Dbl.mul (some d.2.1) knob_val)
          (Dbl.mul (some d.2.2) knob_val)))
  | .SCALE d p =>
    match load_knob s p with
    | none => .abort .NotFoundError s
    | some knob_val =>
      .ok (apply_transform L s knob_val
        (L.make_scale (Dbl.mul (some d.1) knob_val) (Dbl.mul (some d.2.1) knob_val)
          (Dbl.mul (some d.2.2) knob_val)))
  | .ROTATE axis degrees p =>
    match load_knob s p with
    | none => .abort .NotFoundError s
    | some knob_val =>
      let theta := Dbl.mul (some degrees) knob_val
      .ok (apply_transform L s knob_val
        (if axis = 0 then L.make_rotX theta
         else if axis = 1 then L.make_rotY theta
         else L.make_rotZ theta))
  | .PUSH => .ok { s with systems := push s.systems }
  | .POP =>
    match pop s.systems with
    | none => .abort .EmptyStackError s
    | some st => .ok { s with systems := st }
  | .SAVE p => .ok { s with out := s.out ++ [.save_extension s.t p] }
  | .DISPLAY => .ok { s with out := s.out ++ [.display s.t] }
  | .SET p val =>
    match lookup_symbol s.symtab p with
    | none => .abort .NotFoundError s
    | some q => .ok { s with symtab := set_value s.symtab q (some val) }
  | .SETKNOBS value =>
    .ok { s with symtab := setknobs_loop i (some value) s.symtab.length s.symtab }
  | .FRAMES _ => .ok s
  | .BASENAME _ => .ok s
  | .VARY _ _ _ _ _ => .ok s

/-- The inner loop `for (i=0;i<lastop;i++)`, from index `i` on. -/
def exec_ops {M : Type} (L : MatrixLib M) : Nat → List Opcode → Interp M → Res M
  | _, [], s => .ok s
  | i, o :: os, s =>
    match exec_op L i o s with
    | .ok s1 => exec_ops L (i + 1) os s1
    | .abort f s1 => .abort f s1

/-- The loop `for(knob = knobs[k]; knob != NULL; knob = knob->next)` with its
body `set_value(lookup_symbol(knob->name),knob->value)`. -/
def apply_knobs {M : Type} : List vary_node → Interp M → Res M
  | [], s => .ok s
  | knob :: next, s =>
    match lookup_symbol s.symtab knob.name with
    | none => .abort .NotFoundError s
    | some p => apply_knobs next { s with symtab := set_value s.symtab p knob.value }

/-- The head of the frame loop: the knobs of frame `k` are applied when
`num_frames > 1`. -/
def frame_head {M : Type} (knobs : List (List vary_node)) (k : Nat) (s : Interp M) : Res M :=
  if s.num_frames > 1 then apply_knobs (knobs.getD k []) s else .ok s

/-- The digits printed by the conversion `%03d` for a frame number. -/
def fmt_03d (k : Nat) : String :=
  if k < 1000 then
    String.mk [Nat.digitChar (k / 100), Nat.digitChar (k / 10 % 10), Nat.digitChar (k % 10)]
  else
    Nat.repr k

/-- The file name built by `sprintf(file,"anim/%s%03d.png",name,k)`. -/
def frame_file (name : String) (k : Nat) : String :=
  "anim/" ++ name ++ fmt_03d k ++ ".png"

/-- The loop `while(systems->top) pop(systems)`: the matrices are popped until
one is left. -/
def pop_all {M : Type} : M → List M → stack M
  | cur, [] => ⟨cur, []⟩
  | _, m :: rest => pop_all m rest

/-- The end of the frame loop: when `num_frames > 1` the screen is saved and
cleared, and the stack is popped down to one matrix. -/
def frame_tail {M : Type} (k : Nat) (s : Interp M) : Interp M :=
  if s.num_frames > 1 then
    let file := frame_file s.name k
    { s with
      out := s.out ++ [.save_extension s.t file, .msg_generating file],
      t := [],
      systems := pop_all s.systems.cur s.systems.below }
  else s

/-- The frame loop `for (k = 0; k < num_frames; k++)`: `n` frames from frame
`k` on. -/
def run_frames {M : Type} (L : MatrixLib M) (op : List Opcode) (knobs : List (List vary_node)) :
    Nat → Nat → Interp M → Res M
  | 0, _, s => .ok s
  | n + 1, k, s =>
    match frame_head knobs k s with
    | .abort f s1 => .abort f s1
    | .ok s1 =>
      match exec_ops L 0 op s1 with
      | .abort f s2 => .abort f s2
      | .ok s2 => run_frames L op knobs n (k + 1) (frame_tail k s2)

/-- The state of `my_main` when it calls `first_pass`: a new stack, an empty
`tmp`, a cleared screen, `num_frames = 1`. -/
def init {M : Type} (L : MatrixLib M) (inp : Input) : Interp M :=
  { systems := new_stack L, tmp := [], t := [], knob_val := inp.knob_val,
    symtab := inp.symtab, num_frames := 1, name := inp.name, out := [] }

/-- The array `knobs` of `my_main`: the result of `second_pass` when
`num_frames > 1`, else one cell that is never read. -/
def build_knobs (op : List Opcode) (num_frames : Nat) : List (List vary_node) :=
  if num_frames > 1 then second_pass op num_frames else [[]]

/-- The function `my_main`. -/
def my_main {M : Type} (L : MatrixLib M) (inp : Input) : Res M :=
  match first_pass inp.op (init L inp) with
  | .abort f s => .abort f s
  | .ok s =>
    match run_frames L inp.op (build_knobs inp.op s.num_frames) s.num_frames 0 s with
    | .abort f s1 => .abort f s1
    | .ok s1 => .ok { s1 with out := s1.out ++ [.make_animation s1.name] }

/-- The state in which `my_main` enters the inner opcode loop of frame `k`:
the frames before `k` have run and the knobs of frame `k` are applied. -/
def at_inner_loop {M : Type} (L : MatrixLib M) (inp : Input) (k : Nat) : Res M :=
  match first_pass inp.op (init L inp) with
  | .abort f s => .abort f s
  | .ok s =>
    match run_frames L inp.op (build_knobs inp.op s.num_frames) k 0 s with
    | .abort f s1 => .abort f s1
    | .ok s1 => frame_head (build_knobs inp.op s.num_frames) k s1

/-- The state in which `my_main` dispatches the opcode at index `i` of frame
`k`: the inner loop of that frame has run the opcodes before `i`. -/
def at_op {M : Type} (L : MatrixLib M) (inp : Input) (k i : Nat) : Res M :=
  match at_inner_loop L inp k with
  | .abort f s => .abort f s
  | .ok s => exec_ops L 0 (inp.op.take i) s

/-! ## A concrete matrix library -/

/-- Modelled from the spec: a 4x4 matrix of doubles, by row and column. -/
abbrev Mat4 := Fin 4 → Fin 4 → Dbl

/-- Modelled from the spec: the 4x4 matrix primitives (identity, product,
translation, scaling, rotations). The cosine and the sine of an angle given
in degrees are parameters. -/
def mat4 (cosd sind : Dbl → Dbl) : MatrixLib Mat4 where
  ident := fun i j => if i = j then some 1 else some 0
  matrix_mult := fun a b i j =>
    Dbl.add (Dbl.add (Dbl.add (Dbl.mul (a i 0) (b 0 j)) (Dbl.mul (a i 1) (b 1 j)))
      (Dbl.mul (a i 2) (b 2 j))) (Dbl.mul (a i 3) (b 3 j))
  make_translate := fun x y z i j =>
    if i = j then some 1
    else if j = 3 then (if i = 0 then x else if i = 1 then y else z)
    else some 0
  make_scale := fun x y z i j =>
    if i = j then (if i = 0 then x else if i = 1 then y else if i = 2 then z else some 1)
    else some 0
  make_rotX := fun theta i j =>
    if i = 1 ∧ j = 1 ∨ i = 2 ∧ j = 2 then cosd theta
    else if i = 1 ∧ j = 2 then Dbl.mul (some (-1)) (sind theta)
    else if i = 2 ∧ j = 1 then sind theta
    else if i = j then some 1 else some 0
  make_rotY := fun theta i j =>
    if i = 0 ∧ j = 0 ∨ i = 2 ∧ j = 2 then cosd theta
    else if i = 0 ∧ j = 2 then sind theta
    else if i = 2 ∧ j = 0 then Dbl.mul (some (-1)) (sind theta)
    else if i = j then some 1 else some 0
  make_rotZ := fun theta i j =>
    if i = 0 ∧ j = 0 ∨ i = 1 ∧ j = 1 then cosd theta
    else if i = 0 ∧ j = 1 then Dbl.mul (some (-1)) (sind theta)
    else if i = 1 ∧ j = 0 then sind theta
    else if i = j then some 1 else some 0

/-- Modelled from the spec: an elementary transform, as made by one of the
matrix constructors. -/
inductive Prim
  | translate (x y z : Dbl)
  | scale (x y z : Dbl)
  | rotX (theta : Dbl)
  | rotY (theta : Dbl)
  | rotZ (theta : Dbl)
  deriving DecidableEq, Repr

/-- Modelled from the spec: the matrix primitives of `matrix.c` over words of
elementary transforms, a matrix being written as the product it was built
as. -/
def words : MatrixLib (List Prim) where
  ident := []
  matrix_mult := fun a b => a ++ b
  make_translate := fun x y z => [.translate x y z]
  make_scale := fun x y z => [.scale x y z]
  make_rotX := fun theta => [.rotX theta]
  make_rotY := fun theta => [.rotY theta]
  make_rotZ := fun theta => [.rotZ theta]

/-! ## Sample inputs -/

/-- The opcode sequence of the end-to-end example. -/
def demo_op : List Opcode :=
  [.FRAMES 5, .BASENAME "demo", .VARY "rot" 0 4 0 90, .PUSH, .ROTATE 2 1 (some "rot"),
    .SPHERE (0, 0, 0) 50 none none, .POP]

/-- What one frame of the end-to-end example logs, the frame being saved as
`file` and the rotation being by `v` degrees about the z axis. -/
def demo_frame_out {M : Type} (L : MatrixLib M) (file : String) (v : ℚ) : List (Event M) :=
  [.op_line 0, .op_line 1, .op_line 2, .op_line 3, .op_line 4, .op_line 5,
    .draw_polygons [⟨.sphere (0, 0, 0) 50 step, [L.matrix_mult L.ident (L.make_rotZ (some v))]⟩],
    .op_line 6,
    .save_extension [⟨.sphere (0, 0, 0) 50 step, [L.matrix_mult L.ident (L.make_rotZ (some v))]⟩]
      file,
    .msg_generating file]

/-- A symbol table with the single knob `k`, at 0. -/
def knob_k : List SYMTAB := [⟨"k", .SYM_VALUE, some 0⟩]

/-- A transform without a knob after a transform with one. -/
def stale_op : List Opcode :=
  [.SET "k" 3, .SCALE (2, 2, 2) (some "k"), .MOVE (1, 0, 0) none]

/-- Two VARY opcodes on one knob, over the same frames. -/
def overlap_op : List Opcode :=
  [.FRAMES 2, .VARY "k" 0 1 0 10, .VARY "k" 0 1 100 200]

/-- An animation that moves the bottom matrix of the stack. -/
def drift_op : List Opcode :=
  [.FRAMES 2, .VARY "k" 0 1 1 2, .MOVE (1, 0, 0) (some "k")]

/-! ## Notions used to state the claims -/

/-- The state in which `my_main` leaves frame `j`: the frames up to `j` have
run, the last of them through the end of the frame loop body. -/
def at_frame_end {M : Type} (L : MatrixLib M) (inp : Input) (j : Nat) : Res M :=
  match first_pass inp.op (init L inp) with
  | .abort f s => .abort f s
  | .ok s => run_frames L inp.op (build_knobs inp.op s.num_frames) (j + 1) 0 s

/-- What the log tells of the replay: an opcode was dispatched, a file was
saved. -/
inductive Mark
  | dispatched (i : Nat)
  | saved (file : String)
  deriving DecidableEq, Repr

/-- The mark left by a logged call, if it is the line of an opcode or a call
of `save_extension`. -/
def mark {M : Type} : Event M → Option Mark
  | .op_line i => some (.dispatched i)
  | .save_extension _ file => some (.saved file)
  | _ => none

/-- The marks expected of the opcode at index `i`: it is dispatched, and a
SAVE saves its file. -/
def op_marks (i : Nat) (o : Opcode) : List Mark :=
  match o with
  | .SAVE p => [.dispatched i, .saved p]
  | _ => [.dispatched i]

/-- The marks expected of one replay of the opcodes, from index `i` on. -/
def replay_marks : Nat → List Opcode → List Mark
  | _, [] => []
  | i, o :: os => op_marks i o ++ replay_marks (i + 1) os

/-- The marks expected of frame `k`: one replay of the opcode array, followed
by the save of the frame file when `num_frames > 1`. -/
def frame_marks (op : List Opcode) (num_frames : Nat) (name : String) (k : Nat) : List Mark :=
  replay_marks 0 op ++ if num_frames > 1 then [.saved (frame_file name k)] else []

/-- An opcode is a MOVE, SCALE, ROTATE, BOX, SPHERE or TORUS. -/
def is_transform_or_solid : Opcode → Bool
  | .MOVE _ _ => true
  | .SCALE _ _ => true
  | .ROTATE _ _ _ => true
  | .BOX _ _ _ _ => true
  | .SPHERE _ _ _ _ => true
  | .TORUS _ _ _ _ _ => true
  | _ => false

/-- The knob a MOVE, SCALE or ROTATE points to, if it has one. -/
def knob_of : Opcode → Option String
  | .MOVE _ p => p
  | .SCALE _ p => p
  | .ROTATE _ _ p => p
  | _ => none

/-- The node a VARY opcode owes to frame `f`: one node, carrying the knob and
its interpolated value, when `start_frame ≤ f ≤ end_frame`; no node otherwise,
and none for any other opcode. -/
def covering_node (f : Nat) : Opcode → Option vary_node
  | .VARY p start_frame end_frame start_val end_val =>
    if start_frame ≤ f ∧ f ≤ end_frame then
      some ⟨p, Dbl.add (some start_val)
        (Dbl.mul (Dbl.div_int ((f : Int) - start_frame) ((end_frame : Int) - start_frame))
          (some (end_val - start_val)))⟩
    else none
  | _ => none

/-! ## Lemmas on `first_pass` -/

theorem first_pass_scan_flags {M : Type} (op : List Opcode) (a : Found × Interp M) :
    (op.foldl first_pass_step a).1 =
      ⟨a.1.frames_found || op.any is_FRAMES, a.1.base_found || op.any is_BASENAME,
        a.1.vary_found || op.any is_VARY⟩ := by
  induction op generalizing a with
  | nil => simp
  | cons o os ih =>
    rw [List.foldl_cons, ih]
    cases o <;> simp [first_pass_step, is_FRAMES, is_BASENAME, is_VARY, Bool.or_assoc]

theorem first_pass_scan_state {M : Type} (op : List Opcode) (a : Found × Interp M) :
    (op.foldl first_pass_step a).2 =
      { a.2 with num_frames := (op.foldl first_pass_step a).2.num_frames,
                 name := (op.foldl first_pass_step a).2.name } := by
  induction op generalizing a with
  | nil => simp
  | cons o os ih =>
    rw [List.foldl_cons]
    rw [ih]
    cases o <;> simp [first_pass_step]

theorem first_pass_scan_out {M : Type} (op : List Opcode) (a : Found × Interp M) :
    (op.foldl first_pass_step a).2.out = a.2.out := by
  rw [first_pass_scan_state]

theorem any_is_FRAMES_eq_false (op : List Opcode) (hf : ∀ n, Opcode.FRAMES n ∉ op) :
    op.any is_FRAMES = false := by
  rw [List.any_eq_false]
  intro o ho
  cases o <;> simp [is_FRAMES]
  exact hf _ ho

theorem second_pass_length (op : List Opcode) (n : Nat) : (second_pass op n).length = n := by
  simp [second_pass]

theorem second_pass_get (op : List Opcode) (n f : Nat) (h : f < n) :
    (second_pass op n)[f]? = some (second_pass_frame op f) := by
  simp [second_pass, List.getElem?_map, List.getElem?_range h]

theorem lookup_symbol_set_value (tab : List SYMTAB) (q : Nat) (v : Dbl) (name : String) :
    lookup_symbol (set_value tab q v) name = lookup_symbol tab name := by
  induction tab generalizing q with
  | nil => rfl
  | cons e rest ih =>
    cases q with
    | zero => simp [set_value, lookup_symbol]
    | succ q => simp [set_value, lookup_symbol, ih]

theorem sym_value_set_value (tab : List SYMTAB) (q : Nat) (v : Dbl) (name : String)
    (h : lookup_symbol tab name = some q) :
    sym_value (set_value tab q v) name = some v := by
  unfold sym_value
  rw [lookup_symbol_set_value, h]
  induction tab generalizing q with
  | nil => simp [lookup_symbol] at h
  | cons e rest ih =>
    unfold lookup_symbol at h
    split_ifs at h with hn
    · cases h
      simp [set_value]
    · cases hl : lookup_symbol rest name with
      | none => simp [hl] at h
      | some r =>
        simp [hl] at h
        subst h
        simpa [set_value] using ih r hl

theorem frame_file_demo :
    frame_file "demo" 0 = "anim/demo000.png" ∧ frame_file "demo" 1 = "anim/demo001.png" ∧
    frame_file "demo" 2 = "anim/demo002.png" ∧ frame_file "demo" 3 = "anim/demo003.png" ∧
    frame_file "demo" 4 = "anim/demo004.png" := by
  decide

/-! ## Lemmas on the frame loop -/

theorem run_frames_add {M : Type} (L : MatrixLib M) (op : List Opcode)
    (knobs : List (List vary_node)) (a b k : Nat) (s : Interp M) :
    run_frames L op knobs (a + b) k s =
      match run_frames L op knobs a k s with
      | .ok s1 => run_frames L op knobs b (k + a) s1
      | .abort f s1 => .abort f s1 := by
  induction a generalizing k s with
  | zero => simp [run_frames]
  | succ a ih =>
    rw [Nat.succ_add]
    simp only [run_frames]
    cases h1 : frame_head knobs k s with
    | abort f s1 => rfl
    | ok s1 =>
      cases h2 : exec_ops L 0 op s1 with
      | abort f s2 => simp only [h2]
      | ok s2 =>
        simp only [h2, ih]
        rw [Nat.add_right_comm k 1 a, Nat.add_assoc k a 1]

/-! ## Lemmas on the frame file names -/

theorem digitChar_lt_digitChar : ∀ b < 10, ∀ a < b, Nat.digitChar a < Nat.digitChar b := by
  decide

theorem fmt_03d_toList (k : Nat) (h : k < 1000) :
    (fmt_03d k).toList =
      [Nat.digitChar (k / 100), Nat.digitChar (k / 10 % 10), Nat.digitChar (k % 10)] := by
  simp [fmt_03d, h, String.toList]

theorem frame_file_toList (name : String) (k : Nat) (h : k < 1000) :
    (frame_file name k).toList =
      ("anim/".toList ++ name.toList) ++
        (Nat.digitChar (k / 100) :: Nat.digitChar (k / 10 % 10) :: Nat.digitChar (k % 10) ::
          ".png".toList) := by
  have := fmt_03d_toList k h
  simp only [String.toList] at this ⊢
  simp only [frame_file, String.data_append, this]
  simp

theorem frame_file_increasing (B : String) (j k : Nat) (hjk : j < k) (hk : k < 1000) :
    frame_file B j < frame_file B k := by
  rw [String.lt_iff_toList_lt, frame_file_toList B j (by omega), frame_file_toList B k hk]
  show List.Lex (· < ·) _ _
  apply List.Lex.append_left
  by_cases h2 : j / 100 < k / 100
  · exact List.Lex.rel (digitChar_lt_digitChar _ (by omega) _ h2)
  · have e2 : j / 100 = k / 100 := by omega
    rw [e2, List.Lex.cons_iff]
    by_cases h1 : j / 10 % 10 < k / 10 % 10
    · exact List.Lex.rel (digitChar_lt_digitChar _ (by omega) _ h1)
    · have e1 : j / 10 % 10 = k / 10 % 10 := by omega
      rw [e1, List.Lex.cons_iff]
      exact List.Lex.rel (digitChar_lt_digitChar _ (by omega) _ (by omega))

/-! ## More lemmas on `first_pass` -/

theorem exec_ops_append {M : Type} (L : MatrixLib M) (a b : List Opcode) (i : Nat)
    (s : Interp M) :
    exec_ops L i (a ++ b) s =
      match exec_ops L i a s with
      | .ok s1 => exec_ops L (i + a.length) b s1
      | .abort f s1 => .abort f s1 := by
  induction a generalizing i s with
  | nil => simp [exec_ops]
  | cons o os ih =>
    rw [List.cons_append]
    simp only [exec_ops]
    cases h : exec_op L i o s with
    | abort f s1 => rfl
    | ok s1 =>
      simp only [ih, List.length_cons]
      rw [Nat.add_assoc, Nat.add_comm 1]

theorem exec_op_ok_marks {M : Type} (L : MatrixLib M) (i : Nat) (o : Opcode) (s s1 : Interp M)
    (h : exec_op L i o s = .ok s1) :
    s1.num_frames = s.num_frames ∧ s1.name = s.name ∧
      s1.out.filterMap mark = s.out.filterMap mark ++ op_marks i o := by
  cases o <;> simp only [exec_op] at h <;> (try split at h) <;>
    first
    | (cases h; simp [mark, op_marks, draw_solid, apply_transform, List.filterMap_append])
    | (simp at h)

theorem exec_ops_ok_marks {M : Type} (L : MatrixLib M) (ops : List Opcode) (i : Nat)
    (s s1 : Interp M) (h : exec_ops L i ops s = .ok s1) :
    s1.num_frames = s.num_frames ∧ s1.name = s.name ∧
      s1.out.filterMap mark = s.out.filterMap mark ++ replay_marks i ops := by
  induction ops generalizing i s with
  | nil =>
    simp only [exec_ops, Res.ok.injEq] at h
    subst h
    simp [replay_marks]
  | cons o os ih =>
    simp only [exec_ops] at h
    cases h1 : exec_op L i o s with
    | abort f s2 => simp [h1] at h
    | ok s2 =>
      simp only [h1] at h
      obtain ⟨a1, a2, a3⟩ := exec_op_ok_marks L i o s s2 h1
      obtain ⟨b1, b2, b3⟩ := ih (i + 1) s2 h
      refine ⟨b1.trans a1, b2.trans a2, ?_⟩
      rw [b3, a3, replay_marks, List.append_assoc]

theorem apply_knobs_ok_eq {M : Type} (nodes : List vary_node) (s s1 : Interp M)
    (h : apply_knobs nodes s = .ok s1) : s1 = { s with symtab := s1.symtab } := by
  induction nodes generalizing s with
  | nil =>
    simp only [apply_knobs, Res.ok.injEq] at h
    subst h
    rfl
  | cons nd rest ih =>
    simp only [apply_knobs] at h
    split at h
    · simp at h
    · have e := ih _ h
      rw [e]

theorem frame_head_ok_eq {M : Type} (knobs : List (List vary_node)) (k : Nat) (s s1 : Interp M)
    (h : frame_head knobs k s = .ok s1) : s1 = { s with symtab := s1.symtab } := by
  unfold frame_head at h
  split_ifs at h
  · exact apply_knobs_ok_eq _ _ _ h
  · cases h
    rfl

theorem run_frames_ok_marks {M : Type} (L : MatrixLib M) (op : List Opcode)
    (knobs : List (List vary_node)) (n k : Nat) (s s1 : Interp M)
    (h : run_frames L op knobs n k s = .ok s1) :
    s1.num_frames = s.num_frames ∧ s1.name = s.name ∧
      s1.out.filterMap mark =
        s.out.filterMap mark ++
          (List.range' k n).flatMap (frame_marks op s.num_frames s.name) := by
  induction n generalizing k s with
  | zero =>
    simp only [run_frames, Res.ok.injEq] at h
    subst h
    simp
  | succ n ih =>
    simp only [run_frames] at h
    cases h1 : frame_head knobs k s with
    | abort f s2 => simp [h1] at h
    | ok s2 =>
      simp only [h1] at h
      cases h2 : exec_ops L 0 op s2 with
      | abort f s3 => simp [h2] at h
      | ok s3 =>
        simp only [h2] at h
        have e2 := frame_head_ok_eq knobs k s s2 h1
        obtain ⟨a1, a2, a3⟩ := exec_ops_ok_marks L op 0 s2 s3 h2
        obtain ⟨b1, b2, b3⟩ := ih (k + 1) (frame_tail k s3) h
        have n2 : s2.num_frames = s.num_frames := by rw [e2]
        have m2 : s2.name = s.name := by rw [e2]
        have o2 : s2.out = s.out := by rw [e2]
        have t1 : (frame_tail k s3).num_frames = s.num_frames := by
          unfold frame_tail
          split_ifs <;> simp [a1, n2]
        have t2 : (frame_tail k s3).name = s.name := by
          unfold frame_tail
          split_ifs <;> simp [a2, m2]
        have t3 : (frame_tail k s3).out.filterMap mark =
            s.out.filterMap mark ++ frame_marks op s.num_frames s.name k := by
          unfold frame_tail frame_marks
          rw [a1, n2]
          split_ifs <;>
            simp [a3, o2, a2, m2, mark, List.filterMap_append]
        refine ⟨b1.trans t1, b2.trans t2, ?_⟩
        rw [b3, t3, t1, t2, List.range'_succ, List.flatMap_cons, List.append_assoc]

theorem my_main_of_at_op {M : Type} (L : MatrixLib M) (inp : Input) (k i : Nat)
    (s0 s : Interp M) (h0 : first_pass inp.op (init L inp) = .ok s0) (hk : k < s0.num_frames)
    (hs : at_op L inp k i = .ok s) :
    my_main L inp =
      match exec_ops L i (inp.op.drop i) s with
      | .abort f s1 => .abort f s1
      | .ok s2 =>
        match run_frames L inp.op (build_knobs inp.op s0.num_frames) (s0.num_frames - (k + 1))
            (k + 1) (frame_tail k s2) with
        | .abort f s3 => .abort f s3
        | .ok s3 => .ok { s3 with out := s3.out ++ [.make_animation s3.name] } := by
  unfold at_op at_inner_loop at hs
  simp only [h0] at hs
  cases h1 : run_frames L inp.op (build_knobs inp.op s0.num_frames) k 0 s0 with
  | abort f s1 => simp [h1] at hs
  | ok s1 =>
    simp only [h1] at hs
    cases h2 : frame_head (build_knobs inp.op s0.num_frames) k s1 with
    | abort f s2 => simp [h2] at hs
    | ok s2 =>
      simp only [h2] at hs
      have hn : s0.num_frames = k + ((s0.num_frames - (k + 1)) + 1) := by omega
      have hop : exec_ops L 0 inp.op s2 =
          exec_ops L i (inp.op.drop i) s := by
        by_cases hi : i ≤ inp.op.length
        · conv_lhs => rw [← List.take_append_drop i inp.op]
          rw [exec_ops_append, hs]
          simp [List.length_take, Nat.min_eq_left hi]
        · have hi2 : inp.op.length ≤ i := by omega
          rw [List.take_of_length_le hi2] at hs
          rw [List.drop_of_length_le hi2, hs]
          rfl
      have hrun := run_frames_add L inp.op (build_knobs inp.op s0.num_frames) k
        ((s0.num_frames - (k + 1)) + 1) 0 s0
      rw [← hn, h1] at hrun
      simp only [run_frames, Nat.zero_add, h2, hop] at hrun
      unfold my_main
      simp only [h0, hrun]
      cases exec_ops L i (List.drop i inp.op) s <;> rfl

/-! ## Lemmas on transforms and solids -/

theorem exec_op_transform_or_solid {M : Type} (L : MatrixLib M) (i : Nat) (o : Opcode)
    (s : Interp M) (ho : is_transform_or_solid o = true)
    (hk : ∀ p, knob_of o = some p → sym_value s.symtab p ≠ none) :
    exec_op L i o s = .ok (exec_op L i o s).state ∧
      (exec_op L i o s).state.systems.below = s.systems.below ∧
      (exec_op L i o s).state.symtab = s.symtab := by
  cases o with
  | MOVE d p =>
    cases p with
    | none => exact ⟨rfl, rfl, rfl⟩
    | some name =>
      cases hv : sym_value s.symtab name with
      | none => exact absurd hv (hk name rfl)
      | some v => simp [exec_op, load_knob, hv, Res.state, apply_transform, copy_to_top]
  | SCALE d p =>
    cases p with
    | none => exact ⟨rfl, rfl, rfl⟩
    | some name =>
      cases hv : sym_value s.symtab name with
      | none => exact absurd hv (hk name rfl)
      | some v => simp [exec_op, load_knob, hv, Res.state, apply_transform, copy_to_top]
  | ROTATE axis degrees p =>
    cases p with
    | none => exact ⟨rfl, rfl, rfl⟩
    | some name =>
      cases hv : sym_value s.symtab name with
      | none => exact absurd hv (hk name rfl)
      | some v => simp [exec_op, load_knob, hv, Res.state, apply_transform, copy_to_top]
  | BOX d0 d1 c cs => exact ⟨rfl, rfl, rfl⟩
  | SPHERE d r c cs => exact ⟨rfl, rfl, rfl⟩
  | TORUS d r0 r1 c cs => exact ⟨rfl, rfl, rfl⟩
  | _ => simp [is_transform_or_solid] at ho

theorem exec_ops_transform_or_solid {M : Type} (L : MatrixLib M) (mid : List Opcode) (i : Nat)
    (s : Interp M) (hmid : ∀ o ∈ mid, is_transform_or_solid o = true)
    (hk : ∀ o ∈ mid, ∀ p, knob_of o = some p → sym_value s.symtab p ≠ none) :
    ∃ s1, exec_ops L i mid s = .ok s1 ∧ s1.systems.below = s.systems.below ∧
      s1.symtab = s.symtab := by
  induction mid generalizing i s with
  | nil => exact ⟨s, rfl, rfl, rfl⟩
  | cons o os ih =>
    obtain ⟨e1, b1, t1⟩ := exec_op_transform_or_solid L i o s
      (hmid o (List.mem_cons_self _ _)) (hk o (List.mem_cons_self _ _))
    obtain ⟨s2, e2, b2, t2⟩ := ih (i + 1) (exec_op L i o s).state
      (fun x hx => hmid x (List.mem_cons_of_mem _ hx))
      (fun x hx p hp => by
        rw [t1]
        exact hk x (List.mem_cons_of_mem _ hx) p hp)
    refine ⟨s2, ?_, b2.trans b1, t2.trans t1⟩
    rw [exec_ops, e1]
    exact e2

/-! ## More lemmas on `second_pass` and on the knobs -/

theorem second_pass_step_eq (f : Nat) (top : List vary_node) (o : Opcode) :
    second_pass_step f top o = (covering_node f o).toList ++ top := by
  cases o with
  | VARY p sf ef sv ev =>
    simp only [second_pass_step, covering_node, ge_iff_le]
    split_ifs <;> rfl
  | _ => rfl

theorem second_pass_fold_eq (f : Nat) (op : List Opcode) (top : List vary_node) :
    op.foldl (second_pass_step f) top = (op.filterMap (covering_node f)).reverse ++ top := by
  induction op generalizing top with
  | nil => rfl
  | cons o os ih =>
    rw [List.foldl_cons, ih, second_pass_step_eq]
    cases h : covering_node f o <;> simp [List.filterMap_cons, h]

theorem second_pass_frame_eq (op : List Opcode) (f : Nat) :
    second_pass_frame op f = (op.filterMap (covering_node f)).reverse := by
  rw [second_pass_frame, second_pass_fold_eq, List.append_nil]

theorem second_pass_frame_name_ne (op : List Opcode) (f : Nat) (p : String)
    (hno : ∀ sf ef sv ev, Opcode.VARY p sf ef sv ev ∈ op → ¬ (sf ≤ f ∧ f ≤ ef)) :
    ∀ nd ∈ second_pass_frame op f, nd.name ≠ p := by
  intro nd hnd
  rw [second_pass_frame_eq, List.mem_reverse, List.mem_filterMap] at hnd
  obtain ⟨o, ho, hc⟩ := hnd
  cases o with
  | VARY q sf ef sv ev =>
    simp only [covering_node] at hc
    split_ifs at hc with hcov
    · cases hc
      intro e
      exact hno sf ef sv ev (e ▸ ho) hcov
  | _ => simp [covering_node] at hc

theorem lookup_symbol_get (tab : List SYMTAB) (name : String) (q : Nat)
    (h : lookup_symbol tab name = some q) : ∃ e, tab.get? q = some e ∧ e.name = name := by
  induction tab generalizing q with
  | nil => simp [lookup_symbol] at h
  | cons e rest ih =>
    unfold lookup_symbol at h
    split_ifs at h with hn
    · cases h
      exact ⟨e, rfl, hn⟩
    · cases hl : lookup_symbol rest name with
      | none => simp [hl] at h
      | some r =>
        simp [hl] at h
        subst h
        simpa using ih r hl

theorem get_set_value_ne (tab : List SYMTAB) (q r : Nat) (v : Dbl) (h : r ≠ q) :
    (set_value tab q v).get? r = tab.get? r := by
  induction tab generalizing q r with
  | nil => rfl
  | cons e rest ih =>
    cases q with
    | zero =>
      cases r with
      | zero => exact absurd rfl h
      | succ r => rfl
    | succ q =>
      cases r with
      | zero => rfl
      | succ r => simpa [set_value] using ih q r (fun e => h (by rw [e]))

theorem sym_value_set_value_ne (tab : List SYMTAB) (q : Nat) (v : Dbl) (name p : String)
    (h : lookup_symbol tab name = some q) (hne : name ≠ p) :
    sym_value (set_value tab q v) p = sym_value tab p := by
  unfold sym_value
  rw [lookup_symbol_set_value]
  cases hp : lookup_symbol tab p with
  | none => rfl
  | some r =>
    have hr : r ≠ q := by
      intro e
      obtain ⟨e1, g1, n1⟩ := lookup_symbol_get tab name q h
      obtain ⟨e2, g2, n2⟩ := lookup_symbol_get tab p r hp
      rw [e, g1] at g2
      cases g2
      exact hne (n1.symm.trans n2)
    simp only [get_set_value_ne tab q r v hr]

theorem apply_knobs_sym_value {M : Type} (nodes : List vary_node) (s : Interp M) (p : String)
    (h : ∀ nd ∈ nodes, nd.name ≠ p) :
    sym_value (apply_knobs nodes s).state.symtab p = sym_value s.symtab p := by
  induction nodes generalizing s with
  | nil => rfl
  | cons nd rest ih =>
    simp only [apply_knobs]
    cases hl : lookup_symbol s.symtab nd.name with
    | none => rfl
    | some q =>
      simp only []
      rw [ih _ (fun x hx => h x (List.mem_cons_of_mem _ hx))]
      exact sym_value_set_value_ne _ q _ nd.name p hl (h nd (List.mem_cons_self _ _))

/-! ## The claims -/

/-- Claim C2: when the opcode array holds a VARY and no FRAMES, `first_pass`
stops the run with `exit(0)`, and all that `my_main` has logged is the message
of `first_pass`: no opcode line, no drawing, no save, no display, no call of
`make_animation`. -/
theorem my_main_vary_without_frames {M : Type} (L : MatrixLib M) (inp : Input)
    (hv : ∃ p sf ef sv ev, Opcode.VARY p sf ef sv ev ∈ inp.op)
    (hf : ∀ n, Opcode.FRAMES n ∉ inp.op) :
    (first_pass inp.op (init L inp)).fault = some Fault.exit_0 ∧
      (my_main L inp).fault = some Fault.exit_0 ∧
      (my_main L inp).trace = [Event.msg_vary_without_frames] := by
  have hV : inp.op.any is_VARY = true := by
    obtain ⟨p, sf, ef, sv, ev, h⟩ := hv
    exact List.any_eq_true.2 ⟨_, h, rfl⟩
  have hF := any_is_FRAMES_eq_false inp.op hf
  have key : first_pass inp.op (init L inp) =
      .abort .exit_0
        { (inp.op.foldl first_pass_step (⟨false, false, false⟩, init L inp)).2 with
          out := [.msg_vary_without_frames] } := by
    unfold first_pass
    simp [first_pass_scan_flags, hV, hF, first_pass_scan_out, init]
  unfold my_main
  rw [key]
  simp [Res.fault, Res.trace, Res.state]

/-- Witness of C2: a VARY, a sphere and a display, without FRAMES. -/
theorem my_main_vary_without_frames_witness :
    ((∃ p sf ef sv ev, Opcode.VARY p sf ef sv ev ∈
        [Opcode.VARY "k" 0 1 0 1, Opcode.SPHERE (0, 0, 0) 50 none none, Opcode.DISPLAY]) ∧
      ∀ n, Opcode.FRAMES n ∉
        [Opcode.VARY "k" 0 1 0 1, Opcode.SPHERE (0, 0, 0) 50 none none, Opcode.DISPLAY]) ∧
    (my_main words
      ⟨[Opcode.VARY "k" 0 1 0 1, Opcode.SPHERE (0, 0, 0) 50 none none, Opcode.DISPLAY],
        knob_k, none, ""⟩).trace = [Event.msg_vary_without_frames] :=
  ⟨⟨⟨"k", 0, 1, 0, 1, by simp⟩, by simp⟩,
    (my_main_vary_without_frames words
      ⟨[Opcode.VARY "k" 0 1 0 1, Opcode.SPHERE (0, 0, 0) 50 none none, Opcode.DISPLAY],
        knob_k, none, ""⟩ ⟨"k", 0, 1, 0, 1, by simp⟩ (by simp)).2.2⟩

/-- Claim C3, the code at a failing input: in `SET k 3; SCALE 2 2 2 k;
MOVE 1 0 0` the MOVE has no knob, but the multiplier it uses is the 3 left in
`knob_val` by the SCALE, so that it moves by (3, 0, 0). -/
theorem move_without_knob_uses_stale_knob_val {M : Type} (L : MatrixLib M) (kv : Dbl)
    (nm : String) :
    (at_op L ⟨stale_op, knob_k, kv, nm⟩ 0 2).fault = none ∧
    load_knob (at_op L ⟨stale_op, knob_k, kv, nm⟩ 0 2).state none = some (some 3) ∧
    (my_main L ⟨stale_op, knob_k, kv, nm⟩).state.systems.cur =
      L.matrix_mult (L.matrix_mult L.ident (L.make_scale (some 6) (some 6) (some 6)))
        (L.make_translate (some 3) (some 0) (some 0)) := by
  refine ⟨?_, ?_, ?_⟩ <;>
  simp [my_main, at_op, at_inner_loop, stale_op, knob_k, first_pass, first_pass_step, init,
    build_knobs, run_frames, frame_head, lookup_symbol, set_value, sym_value,
    exec_ops, exec_op, load_knob, apply_transform, peek, copy_to_top, frame_tail, new_stack,
    Dbl.mul, Res.fault, Res.state]
  norm_num

/-- Claim C4, the code at a failing input: with `VARY k 0 1 0 10` before
`VARY k 0 1 100 200`, the list of frame 1 holds the node of the later opcode
(200) in front of the node of the earlier one (10), and after the knobs of
frame 1 are applied `k` is at 10, the value of the earlier opcode. -/
theorem overlapping_vary_first_wins {M : Type} (L : MatrixLib M) (kv : Dbl) (nm : String) :
    (second_pass overlap_op 2)[1]? = some [⟨"k", some 200⟩, ⟨"k", some 10⟩] ∧
    (at_inner_loop L ⟨overlap_op, knob_k, kv, nm⟩ 1).fault = none ∧
    sym_value (at_inner_loop L ⟨overlap_op, knob_k, kv, nm⟩ 1).state.symtab "k" =
      some (some 10) := by
  refine ⟨?_, ?_, ?_⟩ <;>
  simp [at_inner_loop, overlap_op, knob_k, first_pass, first_pass_step, init,
    build_knobs, second_pass, second_pass_frame, second_pass_step, List.range_succ,
    Dbl.div_int, Dbl.mul, Dbl.add, run_frames, frame_head, apply_knobs, lookup_symbol,
    set_value, sym_value, exec_ops, exec_op, frame_tail, pop_all, new_stack,
    Res.fault, Res.state]

/-- Claim C5, counterexample: for `FRAMES 2; VARY k 1 1 3 7; VARY j 1 0 3 7`
`second_pass` returns a timeline. The VARY with `end_frame < start_frame`
leaves no node in it, and the one with `start_frame = end_frame` leaves a node
in frame 1 whose value is the non-finite result of the division by zero. -/
theorem second_pass_keeps_empty_range :
    second_pass [Opcode.FRAMES 2, Opcode.VARY "k" 1 1 3 7, Opcode.VARY "j" 1 0 3 7] 2 =
      [[], [⟨"k", none⟩]] := by
  simp [second_pass, second_pass_frame, second_pass_step, List.range_succ, Dbl.div_int, Dbl.mul,
    Dbl.add]

/-- Claim C5, amended: `second_pass` rejects nothing. For every opcode array
it returns a timeline of `n` lists, and a VARY with `end_frame < start_frame`
is passed over: the timeline is the one built without that opcode. -/
theorem second_pass_drops_reversed_range (pre post : List Opcode) (p : String) (sf ef : Nat)
    (sv ev : ℚ) (n : Nat) (h : ef < sf) :
    (second_pass (pre ++ Opcode.VARY p sf ef sv ev :: post) n).length = n ∧
      second_pass (pre ++ Opcode.VARY p sf ef sv ev :: post) n = second_pass (pre ++ post) n := by
  refine ⟨second_pass_length _ _, ?_⟩
  unfold second_pass
  apply List.map_congr_left
  intro f _
  unfold second_pass_frame
  rw [List.foldl_append, List.foldl_cons, List.foldl_append]
  have hc : ¬ (sf ≤ f ∧ ef ≥ f) := by omega
  simp only [second_pass_step, hc, if_false]

/-- Witness of C5 as amended: a VARY from frame 2 back to frame 1 in an
animation of 3 frames. -/
theorem second_pass_drops_reversed_range_witness :
    1 < 2 ∧
    second_pass ([Opcode.FRAMES 3] ++ Opcode.VARY "k" 2 1 0 1 :: [Opcode.DISPLAY]) 3 =
      second_pass ([Opcode.FRAMES 3] ++ [Opcode.DISPLAY]) 3 :=
  ⟨by decide,
    (second_pass_drops_reversed_range [Opcode.FRAMES 3] [Opcode.DISPLAY] "k" 2 1 0 1 3
      (by decide)).2⟩

/-- Claim C6, the code at a failing input: in the animation
`FRAMES 2; VARY k 0 1 1 2; MOVE 1 0 0 k`, over 4x4 matrices, `my_main` enters
the inner loop of frame 1 with one matrix on the stack, and that matrix is the
translation by (1, 0, 0) folded in by frame 0, not the identity. -/
theorem stack_bottom_not_reset (cosd sind : Dbl → Dbl) (kv : Dbl) (nm : String) :
    (at_inner_loop (mat4 cosd sind) ⟨drift_op, knob_k, kv, nm⟩ 1).fault = none ∧
    (at_inner_loop (mat4 cosd sind) ⟨drift_op, knob_k, kv, nm⟩ 1).state.systems.below = [] ∧
    (at_inner_loop (mat4 cosd sind) ⟨drift_op, knob_k, kv, nm⟩ 1).state.systems.cur =
      (mat4 cosd sind).matrix_mult (mat4 cosd sind).ident
        ((mat4 cosd sind).make_translate (some 1) (some 0) (some 0)) ∧
    (at_inner_loop (mat4 cosd sind) ⟨drift_op, knob_k, kv, nm⟩ 1).state.systems.cur ≠
      (mat4 cosd sind).ident := by
  have h : (at_inner_loop (mat4 cosd sind) ⟨drift_op, knob_k, kv, nm⟩ 1).state.systems.cur =
      (mat4 cosd sind).matrix_mult (mat4 cosd sind).ident
        ((mat4 cosd sind).make_translate (some 1) (some 0) (some 0)) := by
    simp [at_inner_loop, drift_op, knob_k, first_pass, first_pass_step, init,
      build_knobs, second_pass, second_pass_frame, second_pass_step, List.range_succ,
      Dbl.div_int, Dbl.mul, Dbl.add, run_frames, frame_head, apply_knobs, lookup_symbol,
      set_value, sym_value, exec_ops, exec_op, load_knob, apply_transform, peek, copy_to_top,
      frame_tail, pop_all, new_stack, Res.state]
  refine ⟨?_, ?_, h, ?_⟩
  · simp [at_inner_loop, drift_op, knob_k, first_pass, first_pass_step, init,
      build_knobs, second_pass, second_pass_frame, second_pass_step, List.range_succ,
      Dbl.div_int, Dbl.mul, Dbl.add, run_frames, frame_head, apply_knobs, lookup_symbol,
      set_value, sym_value, exec_ops, exec_op, load_knob, apply_transform, peek, copy_to_top,
      frame_tail, pop_all, new_stack, Res.fault]
  · simp [at_inner_loop, drift_op, knob_k, first_pass, first_pass_step, init,
      build_knobs, second_pass, second_pass_frame, second_pass_step, List.range_succ,
      Dbl.div_int, Dbl.mul, Dbl.add, run_frames, frame_head, apply_knobs, lookup_symbol,
      set_value, sym_value, exec_ops, exec_op, load_knob, apply_transform, peek, copy_to_top,
      frame_tail, pop_all, new_stack, Res.state]
  · rw [h]
    intro e
    have e03 := congrFun (congrFun e 0) 3
    simp [mat4, Dbl.mul, Dbl.add] at e03

/-- Claim C7, the code at a failing input: `SETKNOBS 5` at index 0 of the
opcode array, with the knobs `a` and `b` in the table, sets `a` (the entry at
index 0) and leaves `b` as it was. -/
theorem setknobs_sets_one_entry {M : Type} (L : MatrixLib M) (kv : Dbl) (nm : String) :
    (my_main L ⟨[Opcode.SETKNOBS 5],
        [⟨"a", .SYM_VALUE, some 0⟩, ⟨"b", .SYM_VALUE, some 0⟩], kv, nm⟩).state.symtab =
      [⟨"a", .SYM_VALUE, some 5⟩, ⟨"b", .SYM_VALUE, some 0⟩] := by
  simp [my_main, first_pass, first_pass_step, init, build_knobs, run_frames, frame_head,
    exec_ops, exec_op, setknobs_loop, set_value, frame_tail, Res.state]

/-- Claim C8, the code at a failing input: for the single opcode `DISPLAY`
there is no FRAMES, `num_frames` is 1, and `my_main` still ends with a call
of `make_animation`, on whatever the global `name` holds. -/
theorem single_image_run_calls_make_animation {M : Type} (L : MatrixLib M)
    (symtab : List SYMTAB) (kv : Dbl) (nm : String) :
    (my_main L ⟨[Opcode.DISPLAY], symtab, kv, nm⟩).fault = none ∧
    (my_main L ⟨[Opcode.DISPLAY], symtab, kv, nm⟩).state.num_frames = 1 ∧
    (my_main L ⟨[Opcode.DISPLAY], symtab, kv, nm⟩).trace =
      [.op_line 0, .display [], .make_animation nm] := by
  simp [my_main, first_pass, first_pass_step, init, build_knobs, run_frames, frame_head,
    exec_ops, exec_op, frame_tail, Res.state, Res.fault, Res.trace]

/-- Claim C9: on the opcode array `FRAMES 5; BASENAME demo; VARY rot 0 4 0 90;
PUSH; ROTATE z 1 rot; SPHERE 0 0 0 50; POP`, with `rot` in the symbol table,
`my_main` runs to its end over 5 frames: each frame replays the 7 opcodes and
is saved as `anim/demo00k.png`, the rotations being by 0, 22.5, 45, 67.5 and 90
degrees; the multiplier loaded by the ROTATE is 0 in frame 0, 45 in frame 2
and 90 in frame 4; the last call, after frame 4 is saved, is
`make_animation("demo")`. -/
theorem my_main_demo {M : Type} (L : MatrixLib M) (symtab : List SYMTAB) (kv : Dbl) (nm : String)
    (q : Nat) (h : lookup_symbol symtab "rot" = some q) :
    (my_main L ⟨demo_op, symtab, kv, nm⟩).fault = none ∧
    (my_main L ⟨demo_op, symtab, kv, nm⟩).state.num_frames = 5 ∧
    (my_main L ⟨demo_op, symtab, kv, nm⟩).trace =
      demo_frame_out L "anim/demo000.png" 0 ++ demo_frame_out L "anim/demo001.png" (45 / 2) ++
      demo_frame_out L "anim/demo002.png" 45 ++ demo_frame_out L "anim/demo003.png" (135 / 2) ++
      demo_frame_out L "anim/demo004.png" 90 ++ [.make_animation "demo"] ∧
    (at_op L ⟨demo_op, symtab, kv, nm⟩ 0 4).fault = none ∧
    load_knob (at_op L ⟨demo_op, symtab, kv, nm⟩ 0 4).state (some "rot") = some (some 0) ∧
    (at_op L ⟨demo_op, symtab, kv, nm⟩ 2 4).fault = none ∧
    load_knob (at_op L ⟨demo_op, symtab, kv, nm⟩ 2 4).state (some "rot") = some (some 45) ∧
    (at_op L ⟨demo_op, symtab, kv, nm⟩ 4 4).fault = none ∧
    load_knob (at_op L ⟨demo_op, symtab, kv, nm⟩ 4 4).state (some "rot") = some (some 90) := by
  obtain ⟨f0, f1, f2, f3, f4⟩ := frame_file_demo
  refine ⟨?_, ?_, ?_, ?_, ?_, ?_, ?_, ?_, ?_⟩ <;>
  simp [my_main, at_op, at_inner_loop, demo_op, first_pass, first_pass_step, init, build_knobs,
    second_pass, second_pass_frame, second_pass_step, List.range_succ, Dbl.div_int, Dbl.mul,
    Dbl.add, run_frames, frame_head, apply_knobs, h, lookup_symbol_set_value,
    sym_value_set_value, exec_ops, exec_op, load_knob, apply_transform, draw_solid, push, pop,
    peek, copy_to_top, frame_tail, pop_all, new_stack, Res.fault, Res.trace, Res.state,
    demo_frame_out, f0, f1, f2, f3, f4] <;> norm_num

/-- Witness of C9: the symbol table holding the knob `rot` alone. -/
theorem my_main_demo_witness :
    lookup_symbol [⟨"rot", .SYM_VALUE, some 0⟩] "rot" = some 0 ∧
    load_knob (at_op words ⟨demo_op, [⟨"rot", .SYM_VALUE, some 0⟩], none, ""⟩ 2 4).state
      (some "rot") = some (some 45) :=
  ⟨by decide,
    (my_main_demo words [⟨"rot", .SYM_VALUE, some 0⟩] none "" 0 (by decide)).2.2.2.2.2.2.1⟩

/-- Claim C11: for every base name `B` and all frame numbers `j < k < 1000`,
the file name `my_main` builds for frame `j` (`anim/`, `B`, `j` on three
digits, `.png`) comes strictly before the one it builds for frame `k` in the
lexicographic order of strings; and the 12 file names of an animation of 12
frames called `anim`, taken by frame number, are strictly increasing in that
order. -/
theorem frame_file_lt (B : String) (j k : Nat) (hjk : j < k) (hk : k < 1000) :
    frame_file B j < frame_file B k ∧
    ((List.range 12).map (frame_file "anim")).Pairwise (· < ·) := by
  refine ⟨frame_file_increasing B j k hjk hk, ?_⟩
  rw [List.pairwise_map]
  refine List.Pairwise.imp_of_mem ?_ (List.pairwise_lt_range 12)
  intro a b _ hb hab
  exact frame_file_increasing "anim" a b hab (by have := List.mem_range.1 hb; omega)

/-- Witness of C11: frame 9 comes before frame 10 of the animation `anim`. -/
theorem frame_file_lt_witness :
    (9 < 10 ∧ 10 < 1000) ∧ frame_file "anim" 9 < frame_file "anim" 10 :=
  ⟨by decide, (frame_file_lt "anim" 9 10 (by decide) (by decide)).1⟩

/-- Claim C14, the code at a failing input: the LINE case of `my_main` only
prints. On `LINE 0 0 0 1 1 1; DISPLAY` the log holds the two opcode lines, the
display of an empty screen and the closing call of `make_animation`: the
endpoints are not transformed and no line is handed to the rasterizer. -/
theorem line_draws_nothing {M : Type} (L : MatrixLib M) (symtab : List SYMTAB) (kv : Dbl)
    (nm : String) :
    (my_main L ⟨[Opcode.LINE (0, 0, 0) (1, 1, 1) none none none, Opcode.DISPLAY],
        symtab, kv, nm⟩).trace =
      [.op_line 0, .op_line 1, .display [], .make_animation nm] ∧
    (my_main L ⟨[Opcode.LINE (0, 0, 0) (1, 1, 1) none none none, Opcode.DISPLAY],
        symtab, kv, nm⟩).state.t = [] ∧
    ∀ (i : Nat) (p0 p1 : Vec3) (c cs0 cs1 : Option String) (s : Interp M),
      exec_op L i (Opcode.LINE p0 p1 c cs0 cs1) s = .ok { s with out := s.out ++ [.op_line i] } := by
  refine ⟨?_, ?_, ?_⟩
  · simp [my_main, first_pass, first_pass_step, init, build_knobs, run_frames, frame_head,
      exec_ops, exec_op, frame_tail, Res.state, Res.trace]
  · simp [my_main, first_pass, first_pass_step, init, build_knobs, run_frames, frame_head,
      exec_ops, exec_op, frame_tail, Res.state]
  · intro i p0 p1 c cs0 cs1 s
    rfl

/-- Claim C15: let `my_main` reach the opcode at index `i` of frame `k` in
the state `s`, let that opcode be a POP and let the stack of `s` hold one
matrix. Then the POP fails with the empty-stack error and the run stops there:
`my_main` ends at that fault in the state `s` with the line of the POP added to
the log, so that the stack still holds its one matrix and no later opcode is
dispatched. -/
theorem pop_at_minimum_depth_aborts {M : Type} (L : MatrixLib M) (inp : Input) (k i : Nat)
    (s0 s : Interp M) (h0 : first_pass inp.op (init L inp) = .ok s0) (hk : k < s0.num_frames)
    (hs : at_op L inp k i = .ok s) (hpop : inp.op[i]? = some Opcode.POP)
    (hmin : s.systems.below = []) :
    my_main L inp = .abort .EmptyStackError { s with out := s.out ++ [.op_line i] } ∧
    (my_main L inp).state.systems = ⟨s.systems.cur, []⟩ := by
  obtain ⟨hi, hget⟩ := List.getElem?_eq_some.1 hpop
  have key : my_main L inp =
      .abort .EmptyStackError { s with out := s.out ++ [.op_line i] } := by
    rw [my_main_of_at_op L inp k i s0 s h0 hk hs, List.drop_eq_getElem_cons hi, hget]
    simp [exec_ops, exec_op, pop, hmin]
  refine ⟨key, ?_⟩
  rw [key]
  simp only [Res.state]
  rw [← hmin]

/-- Witness of C15: in `PUSH; POP; POP; DISPLAY` the second POP finds one
matrix on the stack; the run stops at it and the DISPLAY is not reached. -/
theorem pop_at_minimum_depth_aborts_witness :
    (my_main words ⟨[Opcode.PUSH, Opcode.POP, Opcode.POP, Opcode.DISPLAY], [], none, ""⟩).fault =
      some Fault.EmptyStackError ∧
    (my_main words ⟨[Opcode.PUSH, Opcode.POP, Opcode.POP, Opcode.DISPLAY], [], none, ""⟩).trace =
      [.op_line 0, .op_line 1, .op_line 2] := by
  have h := (pop_at_minimum_depth_aborts words
    ⟨[Opcode.PUSH, Opcode.POP, Opcode.POP, Opcode.DISPLAY], [], none, ""⟩ 0 2
    (init words ⟨[Opcode.PUSH, Opcode.POP, Opcode.POP, Opcode.DISPLAY], [], none, ""⟩)
    { init words ⟨[Opcode.PUSH, Opcode.POP, Opcode.POP, Opcode.DISPLAY], [], none, ""⟩ with
      out := [.op_line 0, .op_line 1] }
    (by simp [first_pass, first_pass_step]) (by simp [init])
    (by simp [at_op, at_inner_loop, first_pass, first_pass_step, init, build_knobs, run_frames,
      frame_head, exec_ops, exec_op, push, pop, new_stack])
    (by simp) (by simp [init, new_stack])).1
  rw [h]
  simp [Res.fault, Res.trace, Res.state, init]

/-- Claim C16: from any state, with any stack, the inner loop of `my_main`
runs a PUSH, then any MOVE, SCALE, ROTATE, BOX, SPHERE and TORUS opcodes
(their knobs being in the symbol table), then a POP, to the end, and leaves
the stack as it found it, matrix for matrix: the transforms made in between
go to the copy that PUSH put on top and are gone with the POP. -/
theorem push_pop_restores_stack {M : Type} (L : MatrixLib M) (mid : List Opcode) (i : Nat)
    (s : Interp M) (hmid : ∀ o ∈ mid, is_transform_or_solid o = true)
    (hk : ∀ o ∈ mid, ∀ p, knob_of o = some p → sym_value s.symtab p ≠ none) :
    ∃ s1, exec_ops L i (Opcode.PUSH :: mid ++ [Opcode.POP]) s = .ok s1 ∧
      s1.systems = s.systems := by
  obtain ⟨s1, e1, b1, _⟩ := exec_ops_transform_or_solid L mid (i + 1)
    { s with out := s.out ++ [.op_line i], systems := push s.systems } hmid hk
  refine ⟨{ s1 with out := s1.out ++ [.op_line (i + 1 + mid.length)],
                    systems := ⟨s.systems.cur, s.systems.below⟩ }, ?_, rfl⟩
  have hb : s1.systems.below = s.systems.cur :: s.systems.below := b1
  rw [List.cons_append]
  simp only [exec_ops, exec_op]
  rw [exec_ops_append, e1]
  simp [exec_ops, exec_op, pop, hb]

/-- Witness of C16: a PUSH, a MOVE without knob, a SPHERE and a POP, run from
the state in which `my_main` starts. -/
theorem push_pop_restores_stack_witness :
    (∀ o ∈ [Opcode.MOVE (1, 0, 0) none, Opcode.SPHERE (0, 0, 0) 50 none none],
      is_transform_or_solid o = true) ∧
    ∃ s1, exec_ops words 0
        (Opcode.PUSH :: [Opcode.MOVE (1, 0, 0) none, Opcode.SPHERE (0, 0, 0) 50 none none] ++
          [Opcode.POP]) (init words ⟨[], [], some 1, ""⟩) = .ok s1 ∧
      s1.systems = (init words ⟨[], [], some 1, ""⟩).systems :=
  ⟨by simp [is_transform_or_solid],
    push_pop_restores_stack words
      [Opcode.MOVE (1, 0, 0) none, Opcode.SPHERE (0, 0, 0) 50 none none] 0
      (init words ⟨[], [], some 1, ""⟩) (by simp [is_transform_or_solid])
      (by simp [knob_of])⟩

/-- Claim C17: in the inner loop of `my_main` a FRAMES, a BASENAME or a VARY
falls through the switch. The state after the dispatch is the state before it
with the line of the opcode added to the log: the stack, the symbol table,
`tmp`, the screen, `knob_val`, `num_frames` and `name` are unchanged, and
nothing is drawn, saved or displayed. -/
theorem animation_opcodes_are_no_ops {M : Type} (L : MatrixLib M) (i : Nat) (s : Interp M)
    (n : Nat) (b p : String) (sf ef : Nat) (sv ev : ℚ) :
    exec_op L i (Opcode.FRAMES n) s = .ok { s with out := s.out ++ [.op_line i] } ∧
    exec_op L i (Opcode.BASENAME b) s = .ok { s with out := s.out ++ [.op_line i] } ∧
    exec_op L i (Opcode.VARY p sf ef sv ev) s = .ok { s with out := s.out ++ [.op_line i] } :=
  ⟨rfl, rfl, rfl⟩

/-- Claim C19: for every opcode array and every frame `f < n`, the list
`second_pass` stores at index `f` is made of one node for each VARY opcode
with `start_frame ≤ f ≤ end_frame` and of nothing else, the nodes standing in
the reverse of the order of their opcodes (the node of the last such VARY is
the head); and a VARY with `end_frame < start_frame`, or with
`start_frame ≥ n`, gives no node to any frame: the timeline is the one built
without it. -/
theorem second_pass_nodes (op : List Opcode) (n : Nat) :
    (∀ f, f < n → (second_pass op n)[f]? = some ((op.filterMap (covering_node f)).reverse)) ∧
    (∀ pre post p sf ef sv ev, op = pre ++ Opcode.VARY p sf ef sv ev :: post →
      (ef < sf ∨ n ≤ sf) → second_pass op n = second_pass (pre ++ post) n) := by
  constructor
  · intro f hf
    rw [second_pass_get op n f hf, second_pass_frame_eq]
  · intro pre post p sf ef sv ev e h
    subst e
    unfold second_pass
    apply List.map_congr_left
    intro f hf
    have hfn : f < n := List.mem_range.1 hf
    have hc : ¬ (sf ≤ f ∧ f ≤ ef) := by omega
    rw [second_pass_frame_eq, second_pass_frame_eq, List.filterMap_append,
      List.filterMap_cons, List.filterMap_append]
    simp only [covering_node, hc, if_false]

/-- Witness of C19: two VARY opcodes that both hold frame 1 and a third that
runs backwards; the list of frame 1 holds the node of `b` in front of the node
of `a`. -/
theorem second_pass_nodes_witness :
    1 < 3 ∧
    (second_pass [Opcode.FRAMES 3, Opcode.VARY "a" 0 2 0 2, Opcode.VARY "b" 1 2 0 1,
        Opcode.VARY "c" 2 1 0 1] 3)[1]? = some [⟨"b", some 0⟩, ⟨"a", some 1⟩] := by
  refine ⟨by decide, ?_⟩
  rw [(second_pass_nodes [Opcode.FRAMES 3, Opcode.VARY "a" 0 2 0 2, Opcode.VARY "b" 1 2 0 1,
    Opcode.VARY "c" 2 1 0 1] 3).1 1 (by decide)]
  simp [covering_node, Dbl.div_int, Dbl.mul, Dbl.add]

/-- Claim C20: in an animation, let frame `j` have run to its end in the state
`s1`, let frame `j + 1` be a frame of the run, and let `p` be a knob that no
VARY opcode holds at frame `j + 1` (none with
`start_frame ≤ j + 1 ≤ end_frame`). Then applying the knobs of frame `j + 1`
leaves the value of `p` in the symbol table as it was: `my_main` enters the
inner loop of frame `j + 1` with the value `p` had at the end of frame `j`. -/
theorem uncovered_knob_keeps_value {M : Type} (L : MatrixLib M) (inp : Input) (j : Nat)
    (p : String) (s0 s1 : Interp M) (h0 : first_pass inp.op (init L inp) = .ok s0)
    (hj : j + 1 < s0.num_frames) (h1 : at_frame_end L inp j = .ok s1)
    (hno : ∀ sf ef sv ev, Opcode.VARY p sf ef sv ev ∈ inp.op → ¬ (sf ≤ j + 1 ∧ j + 1 ≤ ef)) :
    (at_inner_loop L inp (j + 1)).state = (apply_knobs (second_pass_frame inp.op (j + 1)) s1).state ∧
    sym_value (at_inner_loop L inp (j + 1)).state.symtab p = sym_value s1.symtab p := by
  unfold at_frame_end at h1
  simp only [h0] at h1
  have hn : s1.num_frames = s0.num_frames := (run_frames_ok_marks L _ _ _ 0 s0 s1 h1).1
  have hgt : s0.num_frames > 1 := by omega
  have hk : (build_knobs inp.op s0.num_frames).getD (j + 1) [] =
      second_pass_frame inp.op (j + 1) := by
    rw [build_knobs, if_pos hgt, List.getD_eq_getElem?_getD, second_pass_get _ _ _ hj]
    rfl
  have key : at_inner_loop L inp (j + 1) =
      apply_knobs (second_pass_frame inp.op (j + 1)) s1 := by
    unfold at_inner_loop
    simp only [h0, h1, frame_head, hn, hgt, if_true, hk]
  rw [key]
  exact ⟨rfl, apply_knobs_sym_value _ s1 p (second_pass_frame_name_ne inp.op (j + 1) p hno)⟩

/-- Witness of C20: the knob `k` goes from 0 to 10 over frames 0 and 1 of an
animation of 3 frames; no VARY holds frame 2, and `k` enters it at 10. -/
theorem uncovered_knob_keeps_value_witness :
    (at_frame_end words ⟨[Opcode.FRAMES 3, Opcode.VARY "k" 0 1 0 10], knob_k, none, ""⟩ 1).fault =
      none ∧
    sym_value (at_inner_loop words
      ⟨[Opcode.FRAMES 3, Opcode.VARY "k" 0 1 0 10], knob_k, none, ""⟩ 2).state.symtab "k" =
      some (some 10) := by
  have e : at_frame_end words ⟨[Opcode.FRAMES 3, Opcode.VARY "k" 0 1 0 10], knob_k, none, ""⟩ 1 =
      .ok (at_frame_end words
        ⟨[Opcode.FRAMES 3, Opcode.VARY "k" 0 1 0 10], knob_k, none, ""⟩ 1).state := by
    simp [at_frame_end, knob_k, first_pass, first_pass_step, init, build_knobs, second_pass,
      second_pass_frame, second_pass_step, List.range_succ, Dbl.div_int, Dbl.mul, Dbl.add,
      run_frames, frame_head, apply_knobs, lookup_symbol, set_value, exec_ops, exec_op,
      frame_tail, pop_all, new_stack, Res.state]
  refine ⟨by rw [e]; rfl, ?_⟩
  rw [(uncovered_knob_keeps_value words
    ⟨[Opcode.FRAMES 3, Opcode.VARY "k" 0 1 0 10], knob_k, none, ""⟩ 1 "k"
    { init words ⟨[Opcode.FRAMES 3, Opcode.VARY "k" 0 1 0 10], knob_k, none, ""⟩ with
      num_frames := 3, name := "default", out := [.msg_no_basename] } _
    (by simp [first_pass, first_pass_step, init]) (by simp) e
    (by
      intro sf ef sv ev h
      simp only [List.mem_cons, Opcode.VARY.injEq, reduceCtorEq, List.mem_singleton, false_or,
        List.not_mem_nil, or_false, true_and] at h
      omega)).2]
  simp [at_frame_end, knob_k, first_pass, first_pass_step, init, build_knobs, second_pass,
    second_pass_frame, second_pass_step, List.range_succ, Dbl.div_int, Dbl.mul, Dbl.add,
    run_frames, frame_head, apply_knobs, lookup_symbol, set_value, sym_value, exec_ops, exec_op,
    frame_tail, pop_all, new_stack, Res.state]

end MDL
